import Mathlib

/-!
Verification development for the pay-transparency reporting portal
(bcgov/fin-gbpe).  The first half embeds the paginated document layout
engine of the doc-gen-service; the second half embeds two pure helper
functions of the backend (`exportDataWithPagination` argument sanitization
and `dollarsToText`).

The implementation file of the layout engine is not present in this source
snapshot (only its unit tests are), so the layout-engine definitions below
are modelled from the specification document, with the unit tests used to
pin concrete behaviours (null-argument errors, fits/does-not-fit outcomes).
-/

namespace FinGbpe

/-- Modelled from the spec: top and bottom page margins, part of the page
sizing parameters handed to the Placement Engine. -/
structure PageMargin where
  top : Nat
  bottom : Nat
deriving DecidableEq

/-- Modelled from the spec: page sizing parameters (page height plus
margins) that are configuration inputs to the Placement Engine. -/
structure PageOptions where
  height : Nat
  margin : PageMargin
deriving DecidableEq

/-- Modelled from the spec: the content height budget of a page is the
total page height minus the top and bottom margins. -/
def contentBudget (opts : PageOptions) : Nat :=
  opts.height - opts.margin.top - opts.margin.bottom

/-- Modelled from the spec: `attemptToPlaceElementOnPage` (doc-gen-service,
missing from this snapshot).  Given a block (identified by its measured
height) and a report page (the list of heights of the blocks already placed
on it), the block is appended to the page when the page's remaining height
can hold it, and left unplaced otherwise; the returned flag reports whether
the placement happened.  A null block or a null page is a programmer error
and fails fast with an error identifying the missing argument. -/
def attemptToPlaceElementOnPage (elementToPlace : Option Nat)
    (reportPage : Option (List Nat)) (opts : PageOptions) :
    Except String (Bool × List Nat) :=
  match elementToPlace with
  | none => Except.error "attemptToPlaceElementOnPage: elementToPlace must be specified"
  | some h =>
    match reportPage with
    | none => Except.error "attemptToPlaceElementOnPage: reportPage must be specified"
    | some page =>
      if page.sum + h ≤ contentBudget opts then Except.ok (true, page ++ [h])
      else Except.ok (false, page)

/-- Modelled from the spec: `moveElementInto` (doc-gen-service, missing
from this snapshot).  The document is a list of (node id, ordered child
ids); moving an element detaches it from every child list and appends it
to the children of the new parent.  A null element or a null parent is a
programmer error and fails fast with an error identifying the missing
argument. -/
def moveElementInto (elemToMove : Option Nat) (elemToBeParent : Option Nat)
    (dom : List (Nat × List Nat)) : Except String (List (Nat × List Nat)) :=
  match elemToMove with
  | none => Except.error "moveElementInto: elemToMove must be specified"
  | some e =>
    match elemToBeParent with
    | none => Except.error "moveElementInto: elemToBeParent must be specified"
    | some p =>
      Except.ok (dom.map (fun node =>
        let pruned := node.2.filter (fun c => decide (c ≠ e))
        if node.1 = p then (node.1, pruned ++ [e]) else (node.1, pruned)))

/-- Modelled from the spec: the greedy single-pass loop of the Placement
Engine, carrying the current page.  The next block goes on the current page
when it fits; otherwise the current page is closed and a new page is
started with that block (placed even when the block alone exceeds the
budget — overflow degrades, it is not an error). -/
def placeBlocksAux (b : Nat) : List Nat → List Nat → List (List Nat)
  | cur, [] => [cur]
  | cur, h :: rest =>
    if cur.sum + h ≤ b then placeBlocksAux b (cur ++ [h]) rest
    else cur :: placeBlocksAux b [h] rest

/-- Modelled from the spec: the Placement Engine assigns each block, in the
original order, to a page; new pages are created on overflow.  The result
is the finished document: the ordered list of pages, each page the ordered
list of the heights of the blocks placed on it. -/
def placeBlocks (opts : PageOptions) (blocks : List Nat) : List (List Nat) :=
  match blocks with
  | [] => []
  | h :: rest => placeBlocksAux (contentBudget opts) [h] rest

/-- A page with zero margins and height 100, i.e. a content budget of 100,
matching the page geometry used throughout the unit tests. -/
def opts100 : PageOptions := { height := 100, margin := { top := 0, bottom := 0 } }

/-- Kinds of top-level report sections the note compactor inspects. -/
inductive SectionKind where
  | explanatoryNotes
  | footnotes
  | other
deriving DecidableEq

/-- A report section: its kind together with the heights of its inner
content blocks. -/
structure NoteSection where
  kind : SectionKind
  blocks : List Nat
deriving DecidableEq

/-- A note or footnote container is removable exactly when it has no inner
content block. -/
def isEmptyNoteSection (s : NoteSection) : Bool :=
  decide ((s.kind = SectionKind.explanatoryNotes ∨ s.kind = SectionKind.footnotes)
    ∧ s.blocks = [])

/-- Modelled from the spec: `clearEmptyNotes` (doc-gen-service, missing
from this snapshot).  The pre-pass walks the document's sections and
removes every explanatory-notes or footnotes container that has no inner
content block, keeping everything else. -/
def clearEmptyNotes : List NoteSection → List NoteSection
  | [] => []
  | s :: rest =>
    if isEmptyNoteSection s then clearEmptyNotes rest
    else s :: clearEmptyNotes rest

/-- A report page as seen by the footnote placer: the general content
stream and the designated footnote zone, both sharing the page's content
budget. -/
structure ReportPage where
  content : List Nat
  footnotes : List Nat
deriving DecidableEq

/-- The total height currently occupied on a page (content stream plus
footnote zone). -/
def occupiedHeight (p : ReportPage) : Nat :=
  p.content.sum + p.footnotes.sum

/-- Modelled from the spec: `placeFootnotes` (doc-gen-service, missing from
this snapshot).  A footnote group is placed into the page's footnote zone
when the page still has room for it; the function returns a success flag
rather than throwing, and a null footnote group yields false. -/
def placeFootnotes (footnoteGroup : Option Nat) (page : ReportPage)
    (opts : PageOptions) : Bool × ReportPage :=
  match footnoteGroup with
  | none => (false, page)
  | some h =>
    if occupiedHeight page + h ≤ contentBudget opts then
      (true, { page with footnotes := page.footnotes ++ [h] })
    else
      (false, page)

/-- Every page emitted by the placement loop keeps its sum of block heights
within the budget, provided the current page already does and every
remaining block fits a page on its own. -/
lemma placeBlocksAux_sum_le (b : Nat) (rest : List Nat) :
    ∀ cur, cur.sum ≤ b → (∀ h ∈ rest, h ≤ b) →
      ∀ p ∈ placeBlocksAux b cur rest, p.sum ≤ b := by
  induction rest with
  | nil =>
    intro cur hcur _ p hp
    simp only [placeBlocksAux, List.mem_singleton] at hp
    exact hp ▸ hcur
  | cons h rest ih =>
    intro cur hcur hall p hp
    simp only [placeBlocksAux] at hp
    by_cases hfit : cur.sum + h ≤ b
    · rw [if_pos hfit] at hp
      exact ih (cur ++ [h]) (by simpa using hfit)
        (fun x hx => hall x (List.mem_cons_of_mem _ hx)) p hp
    · rw [if_neg hfit] at hp
      rcases List.mem_cons.mp hp with rfl | hp2
      · exact hcur
      · exact ih [h] (by simpa using hall h (List.mem_cons_self h rest))
          (fun x hx => hall x (List.mem_cons_of_mem _ hx)) p hp2

/-- C1: for every sequence of blocks whose individual heights are each at
most the page content budget, every page produced by the Placement Engine
carries a total placed-block height at most that budget. -/
theorem placeBlocks_sum_le_budget (opts : PageOptions) (blocks : List Nat)
    (hall : ∀ h ∈ blocks, h ≤ contentBudget opts) :
    ∀ p ∈ placeBlocks opts blocks, p.sum ≤ contentBudget opts := by
  cases blocks with
  | nil => intro p hp; simp [placeBlocks] at hp
  | cons h rest =>
    exact placeBlocksAux_sum_le (contentBudget opts) rest [h]
      (by simpa using hall h (List.mem_cons_self h rest))
      (fun x hx => hall x (List.mem_cons_of_mem _ hx))

/-- Witness for C1: with budget 100 and blocks [40, 40, 40], the first
resulting page [40, 40] keeps its height sum within the budget. -/
theorem placeBlocks_sum_le_budget_witness :
    ([40, 40] : List Nat).sum ≤ contentBudget opts100 :=
  placeBlocks_sum_le_budget opts100 [40, 40, 40] (by decide) [40, 40] (by decide)

/-- Flattening the pages produced by the placement loop recovers the
current page followed by the remaining blocks. -/
lemma placeBlocksAux_flatten (b : Nat) (rest : List Nat) :
    ∀ cur, (placeBlocksAux b cur rest).flatten = cur ++ rest := by
  induction rest with
  | nil => intro cur; simp [placeBlocksAux]
  | cons h rest ih =>
    intro cur
    simp only [placeBlocksAux]
    by_cases hfit : cur.sum + h ≤ b
    · rw [if_pos hfit, ih]
      simp
    · rw [if_neg hfit]
      simp [ih]

/-- C2: the Placement Engine never reorders blocks — concatenating the
block lists of all pages, in page order, yields the original input
sequence. -/
theorem placeBlocks_preserves_order (opts : PageOptions) (blocks : List Nat) :
    (placeBlocks opts blocks).flatten = blocks := by
  cases blocks with
  | nil => rfl
  | cons h rest =>
    simpa using placeBlocksAux_flatten (contentBudget opts) rest [h]

/-- C3: with a content budget of 100 and blocks of heights [40, 40, 40],
the engine produces exactly the two pages [40, 40] and [40]. -/
theorem placeBlocks_forty_forty_forty :
    placeBlocks opts100 [40, 40, 40] = [[40, 40], [40]] := by decide

/-- C4: a single block taller than the full empty-page budget is still
placed — whole, on a page of its own — yielding a one-page document. -/
theorem placeBlocks_oversized_block (opts : PageOptions) (h : Nat)
    (hover : contentBudget opts < h) :
    placeBlocks opts [h] = [[h]] := rfl

/-- Witness for C4: a block of height 150 against a budget of 100 is
force-placed onto a single page. -/
theorem placeBlocks_oversized_block_witness :
    contentBudget opts100 < 150 ∧ placeBlocks opts100 [150] = [[150]] :=
  ⟨by decide, placeBlocks_oversized_block opts100 150 (by decide)⟩

/-- C5: a null block or null page/parent argument to a placement or move
operation fails fast with an error identifying the missing argument — it
is never silently skipped. -/
theorem placement_null_args_fail_fast (dom : List (Nat × List Nat))
    (e p : Nat) (pg : List Nat) (h : Nat) (opts : PageOptions) :
    moveElementInto none (some p) dom
      = Except.error "moveElementInto: elemToMove must be specified" ∧
    moveElementInto none none dom
      = Except.error "moveElementInto: elemToMove must be specified" ∧
    moveElementInto (some e) none dom
      = Except.error "moveElementInto: elemToBeParent must be specified" ∧
    attemptToPlaceElementOnPage none (some pg) opts
      = Except.error "attemptToPlaceElementOnPage: elementToPlace must be specified" ∧
    attemptToPlaceElementOnPage none none opts
      = Except.error "attemptToPlaceElementOnPage: elementToPlace must be specified" ∧
    attemptToPlaceElementOnPage (some h) none opts
      = Except.error "attemptToPlaceElementOnPage: reportPage must be specified" :=
  ⟨rfl, rfl, rfl, rfl, rfl, rfl⟩

/-- C6: `placeFootnotes` never throws — a null footnote group yields the
flag false with the page unchanged; a group the page has no room for
yields false with the group unplaced; a group that fits yields true with
the group appended to the page's footnote zone. -/
theorem placeFootnotes_success_flag (opts : PageOptions) (pg : ReportPage)
    (h : Nat) :
    placeFootnotes none pg opts = (false, pg) ∧
    (occupiedHeight pg + h ≤ contentBudget opts →
      placeFootnotes (some h) pg opts
        = (true, { pg with footnotes := pg.footnotes ++ [h] })) ∧
    (contentBudget opts < occupiedHeight pg + h →
      placeFootnotes (some h) pg opts = (false, pg)) := by
  refine ⟨rfl, ?_, ?_⟩
  · intro hfit
    simp [placeFootnotes, hfit]
  · intro hno
    have hnofit : ¬ occupiedHeight pg + h ≤ contentBudget opts := by omega
    simp [placeFootnotes, hnofit]

/-- Witness for C6: on a budget-100 page with 80 already occupied, a
footnote group of height 30 is refused while one of height 10 is placed
into the footnote zone. -/
theorem placeFootnotes_success_flag_witness :
    placeFootnotes (some 30) { content := [80], footnotes := [] } opts100
      = (false, { content := [80], footnotes := [] }) ∧
    placeFootnotes (some 10) { content := [80], footnotes := [] } opts100
      = (true, { content := [80], footnotes := [10] }) := by
  constructor
  · exact (placeFootnotes_success_flag opts100
      { content := [80], footnotes := [] } 30).2.2 (by decide)
  · have h := (placeFootnotes_success_flag opts100
      { content := [80], footnotes := [] } 10).2.1 (by decide)
    simpa using h

/-- C7: the empty-section pre-pass keeps exactly the sections that are not
empty note containers: a section survives `clearEmptyNotes` precisely when
it was in the document and is not an explanatory-notes or footnotes
container with zero inner content blocks. -/
theorem clearEmptyNotes_mem_iff (doc : List NoteSection) (s : NoteSection) :
    s ∈ clearEmptyNotes doc ↔ s ∈ doc ∧ isEmptyNoteSection s = false := by
  induction doc with
  | nil => simp [clearEmptyNotes]
  | cons t rest ih =>
    by_cases ht : isEmptyNoteSection t
    · rw [clearEmptyNotes, if_pos ht, ih, List.mem_cons]
      constructor
      · rintro ⟨hmem, hf⟩
        exact ⟨Or.inr hmem, hf⟩
      · rintro ⟨hor, hf⟩
        rcases hor with rfl | hmem
        · rw [ht] at hf
          cases hf
        · exact ⟨hmem, hf⟩
    · rw [clearEmptyNotes, if_neg ht, List.mem_cons, List.mem_cons]
      constructor
      · rintro (rfl | hmem)
        · exact ⟨Or.inl rfl, by simpa using ht⟩
        · rcases ih.mp hmem with ⟨hmem2, hf⟩
          exact ⟨Or.inr hmem2, hf⟩
      · rintro ⟨hor, hf⟩
        rcases hor with rfl | hmem
        · exact Or.inl rfl
        · exact Or.inr (ih.mpr ⟨hmem, hf⟩)

/-- C8: the empty-section removal pass is idempotent — running
`clearEmptyNotes` twice yields the same document as running it once. -/
theorem clearEmptyNotes_idempotent (doc : List NoteSection) :
    clearEmptyNotes (clearEmptyNotes doc) = clearEmptyNotes doc := by
  induction doc with
  | nil => rfl
  | cons t rest ih =>
    by_cases ht : isEmptyNoteSection t
    · simp [clearEmptyNotes, ht, ih]
    · simp [clearEmptyNotes, ht, ih]

/-- The paging parameters actually used by `exportDataWithPagination`: the
`skip` and `take` passed to the database query, and the `page` and
`pageSize` fields echoed in the result envelope. -/
structure PaginationParams where
  skip : Int
  take : Int
  page : Int
  pageSize : Int
deriving DecidableEq

/-- Argument sanitization of `exportDataWithPagination`
(backend external-consumer-service).  The original checks
`limit > 1000 || !limit || limit <= 0` (a missing limit is falsy) and
`offset < 0`; the database query then uses `skip: offset, take: limit`
and the result carries `page: offset, pageSize: limit`.  The query
itself is external I/O and is abstracted away: the embedding returns the
paging parameters the query and result envelope are built from. -/
def exportDataWithPagination (offset : Int) (limit : Option Int) :
    PaginationParams :=
  let l : Int :=
    match limit with
    | none => 1000
    | some v => if 1000 < v ∨ v = 0 ∨ v ≤ 0 then 1000 else v
  let o : Int := if offset < 0 then 0 else offset
  { skip := o, take := l, page := o, pageSize := l }

/-- C9: `exportDataWithPagination` sanitizes its paging arguments — a
missing, over-1000 or non-positive limit becomes exactly 1000, a negative
offset becomes 0, and in-range values pass through unchanged; the query
parameters and the echoed result fields agree. -/
theorem exportDataWithPagination_sanitizes (offset : Int) (limit : Option Int) :
    (exportDataWithPagination offset limit).pageSize
      = (exportDataWithPagination offset limit).take ∧
    (exportDataWithPagination offset limit).page
      = (exportDataWithPagination offset limit).skip ∧
    (limit = none → (exportDataWithPagination offset limit).take = 1000) ∧
    (∀ v, limit = some v → 1000 < v →
      (exportDataWithPagination offset limit).take = 1000) ∧
    (∀ v, limit = some v → v ≤ 0 →
      (exportDataWithPagination offset limit).take = 1000) ∧
    (∀ v, limit = some v → 0 < v → v ≤ 1000 →
      (exportDataWithPagination offset limit).take = v) ∧
    (offset < 0 → (exportDataWithPagination offset limit).skip = 0) ∧
    (0 ≤ offset → (exportDataWithPagination offset limit).skip = offset) := by
  refine ⟨rfl, rfl, ?_, ?_, ?_, ?_, ?_, ?_⟩
  · rintro rfl
    rfl
  · rintro v rfl hv
    show (if 1000 < v ∨ v = 0 ∨ v ≤ 0 then (1000 : Int) else v) = 1000
    exact if_pos (Or.inl hv)
  · rintro v rfl hv
    show (if 1000 < v ∨ v = 0 ∨ v ≤ 0 then (1000 : Int) else v) = 1000
    exact if_pos (Or.inr (Or.inr hv))
  · rintro v rfl hv1 hv2
    show (if 1000 < v ∨ v = 0 ∨ v ≤ 0 then (1000 : Int) else v) = v
    exact if_neg (by omega)
  · intro hneg
    show (if offset < 0 then (0 : Int) else offset) = 0
    exact if_pos hneg
  · intro hpos
    show (if offset < 0 then (0 : Int) else offset) = offset
    exact if_neg (by omega)

/-- Witness for C9: a negative offset with an oversized limit is clamped
to 0 and 1000, a zero or missing limit defaults to 1000, and in-range
arguments pass through unchanged. -/
theorem exportDataWithPagination_sanitizes_witness :
    (exportDataWithPagination (-5) (some 2000)).take = 1000 ∧
    (exportDataWithPagination (-5) (some 2000)).skip = 0 ∧
    (exportDataWithPagination 7 (some 50)).take = 50 ∧
    (exportDataWithPagination 7 (some 50)).skip = 7 ∧
    (exportDataWithPagination 7 none).take = 1000 ∧
    (exportDataWithPagination 7 (some 0)).take = 1000 :=
  ⟨(exportDataWithPagination_sanitizes (-5) (some 2000)).2.2.2.1 2000 rfl
      (by norm_num),
    (exportDataWithPagination_sanitizes (-5) (some 2000)).2.2.2.2.2.2.1
      (by norm_num),
    (exportDataWithPagination_sanitizes 7 (some 50)).2.2.2.2.2.1 50 rfl
      (by norm_num) (by norm_num),
    (exportDataWithPagination_sanitizes 7 (some 50)).2.2.2.2.2.2.2
      (by norm_num),
    (exportDataWithPagination_sanitizes 7 none).2.2.1 rfl,
    (exportDataWithPagination_sanitizes 7 (some 0)).2.2.2.2.1 0 rfl
      (by norm_num)⟩

/-- JavaScript `Math.round`: round to the nearest integer, ties toward
positive infinity. -/
def jsRound (x : ℚ) : Int := Int.floor (x + 1/2)

/-- JavaScript `Number.prototype.toFixed(2)` for the amounts produced by
`dollarsToText` (a whole number of cents divided by 100): the dollars,
a decimal point, and the cents padded to two digits. -/
def toFixed2 (x : ℚ) : String :=
  toString (jsRound (x * 100) / 100) ++ "." ++
    (if jsRound (x * 100) % 100 < 10 then "0" ++ toString (jsRound (x * 100) % 100)
     else toString (jsRound (x * 100) % 100))

/-- `dollarsToText` (backend report-service): a negative amount throws;
otherwise the amount is rounded to the nearest cent, amounts under one
dollar are rendered as a whole number of cents, and larger amounts as a
dollar sign followed by the amount with two decimal places.  The thrown
error is embedded as `Except.error` with the original message. -/
def dollarsToText (amountDollars : ℚ) : Except String String :=
  if amountDollars < 0 then
    Except.error "Expected a positive number representing am amount in dollars"
  else if (jsRound (amountDollars * 100) : ℚ) / 100 < 1 then
    Except.ok
      (toString (jsRound ((jsRound (amountDollars * 100) : ℚ) / 100 * 100)) ++ " cents")
  else
    Except.ok ("$" ++ toFixed2 ((jsRound (amountDollars * 100) : ℚ) / 100))

/-- Rounding an exact integer leaves it unchanged. -/
lemma jsRound_intCast (c : Int) : jsRound (c : ℚ) = c := by
  unfold jsRound
  rw [Int.floor_int_add]
  norm_num

/-- Scaling a whole number of cents back to cents recovers that number. -/
lemma jsRound_div_mul (c : Int) : jsRound ((c : ℚ) / 100 * 100) = c := by
  rw [div_mul_cancel₀ _ (by norm_num : (100 : ℚ) ≠ 0)]
  exact jsRound_intCast c

/-- C10: `dollarsToText` errors on every negative amount; a non-negative
amount that rounds to under 100 cents becomes the whole number of cents
followed by " cents", and one of at least 100 cents becomes a dollar sign
followed by the amount with exactly two decimal places. -/
theorem dollarsToText_spec (q : ℚ) :
    (q < 0 → dollarsToText q
      = Except.error "Expected a positive number representing am amount in dollars") ∧
    (0 ≤ q → jsRound (q * 100) < 100 →
      dollarsToText q
        = Except.ok (toString (jsRound (q * 100)) ++ " cents")) ∧
    (0 ≤ q → 100 ≤ jsRound (q * 100) →
      dollarsToText q
        = Except.ok ("$" ++ (toString (jsRound (q * 100) / 100) ++ "." ++
            (if jsRound (q * 100) % 100 < 10 then "0" ++ toString (jsRound (q * 100) % 100)
             else toString (jsRound (q * 100) % 100))))) := by
  refine ⟨?_, ?_, ?_⟩
  · intro hneg
    rw [dollarsToText, if_pos hneg]
  · intro h0 hlt
    have hneg : ¬ q < 0 := not_lt.mpr h0
    have hr1 : ((jsRound (q * 100) : ℚ) / 100) < 1 := by
      rw [div_lt_one (by norm_num : (0:ℚ) < 100)]
      exact_mod_cast hlt
    rw [dollarsToText, if_neg hneg, if_pos hr1, jsRound_div_mul]
  · intro h0 hge
    have hneg : ¬ q < 0 := not_lt.mpr h0
    have hr1 : ¬ ((jsRound (q * 100) : ℚ) / 100) < 1 := by
      rw [not_lt, le_div_iff₀ (by norm_num : (0:ℚ) < 100)]
      have hc : (100 : ℚ) ≤ (jsRound (q * 100) : ℚ) := by exact_mod_cast hge
      linarith
    rw [dollarsToText, if_neg hneg, if_neg hr1, toFixed2, jsRound_div_mul]

/-- Witness for C10: a negative dollar amount errors, 0.95 renders as
"95 cents", and 1.2 renders as "$1.20". -/
theorem dollarsToText_spec_witness :
    dollarsToText (-1)
      = Except.error "Expected a positive number representing am amount in dollars" ∧
    dollarsToText (19/20) = Except.ok "95 cents" ∧
    dollarsToText (6/5) = Except.ok "$1.20" := by
  refine ⟨(dollarsToText_spec (-1)).1 (by norm_num), ?_, ?_⟩
  · have hj : jsRound ((19:ℚ)/20 * 100) = 95 := by unfold jsRound; norm_num
    have h := (dollarsToText_spec (19/20)).2.1 (by norm_num) (by rw [hj]; norm_num)
    rw [h, hj]
    rfl
  · have hj : jsRound ((6:ℚ)/5 * 100) = 120 := by unfold jsRound; norm_num
    have h := (dollarsToText_spec (6/5)).2.2 (by norm_num) (by rw [hj]; norm_num)
    rw [h, hj]
    rfl

end FinGbpe
